/-
Verification of the Footy football-management simulation.

Shallow embedding of the parts of the code base relevant to the transfer
market (`transfer.py`, `team.py`), the reinforcement-learning manager
(`manager_brain.py`, `manager_profile.py`), player state (`player.py`) and
the match engine's lineup validation (`match.py`).

Python floats are modelled as rationals (ℚ); Python ints as ℤ/ℕ.  Python
object identity for players is modelled by giving every player a numeric
`pid` and storing mutable player state in a global association list, so that
aliasing (one player object referenced from several rosters and listings)
is represented faithfully.  Randomness (`random.uniform`, `random.randint`)
is modelled by passing the drawn values as explicit arguments, constrained
to the interval the Python call draws from.
-/
import Mathlib

namespace Footy

/-! ## Player state (`player.py`) -/

/-- Mutable and immutable per-player state used by the functions we verify.
`attributes` is the dict-of-dicts of attribute values, flattened to a list of
categories, each a list of sub-attribute values. `injury_history` keeps the
`start_age` of each recorded injury (the only field `calculate_player_value`
reads from the history). -/
structure Player where
  name : String
  age : ℤ
  potential : ℚ
  position : String
  squad_role : String
  contract_length : ℤ
  wage : ℚ
  desired_wage : ℚ
  team : Option String
  transfer_interest : Bool
  attributes : List (List ℚ)
  form : List ℚ
  fitness : ℚ
  is_injured : Bool
  yellow_cards : ℤ
  red_cards : ℤ
  injury_history : List ℤ
  deriving Repr, DecidableEq

/-- Port of `FootballPlayer.get_overall_rating`: mean of all sub-attribute values,
50 when there are none. -/
def get_overall_rating (p : Player) : ℚ :=
  let total : ℚ := (p.attributes.map (fun cat => cat.sum)).sum
  let count : ℕ := (p.attributes.map (fun cat => cat.length)).sum
  if count > 0 then total / count else 50

/-- Port of `FootballPlayer.get_form_rating`: mean of the form list, 0.7 when empty. -/
def get_form_rating (p : Player) : ℚ :=
  if p.form.isEmpty then 0.7 else p.form.sum / p.form.length

/-- Port of `FootballPlayer.get_suspension_games`. -/
def get_suspension_games (p : Player) : ℤ :=
  if p.red_cards > 0 then min 3 p.red_cards
  else if p.yellow_cards ≥ 5 then 1
  else 0

/-- Port of `FootballPlayer.is_available_for_selection`: not injured, fitness
strictly above 30, not suspended. -/
def is_available_for_selection (p : Player) : Bool :=
  !p.is_injured && p.fitness > 30 && get_suspension_games p == 0

/-! ## Manager profile (`manager_profile.py`) -/

/-- The strategic-preference fields of `ManagerProfile` that
`calculate_match_reward` reads. -/
structure ManagerProfile where
  short_term_weight : ℚ
  long_term_weight : ℚ
  possession_preference : ℚ
  deriving Repr, DecidableEq

/-- A match-result record, with all keys `calculate_match_reward` reads
present (`result.get` defaults are the values a caller omits; the claims
quantify over records carrying the keys). -/
structure MatchResult where
  won : ℚ
  drawn : ℚ
  goals_scored : ℚ
  goals_conceded : ℚ
  youth_minutes : ℚ
  possession : ℚ
  player_development : ℚ
  deriving Repr, DecidableEq

/-- Port of `ManagerProfile.calculate_match_reward`, ported with Python's operator
precedence: the conditional expression binds looser than `+`, so the
parenthesised long-term sum parses as
`(0.5*ym/90 + 0.3*poss/50) if possession_preference > 0.5
 else (0 + 0.2*player_development)`. -/
def calculate_match_reward (m : ManagerProfile) (r : MatchResult) : ℚ :=
  let short_term_reward : ℚ :=
    3.0 * r.won + 1.0 * r.drawn + 1.0 * r.goals_scored - 0.5 * r.goals_conceded
  let long_term_reward : ℚ :=
    if m.possession_preference > 0.5 then
      0.5 * r.youth_minutes / 90 + 0.3 * r.possession / 50
    else
      0 + 0.2 * r.player_development
  m.short_term_weight * short_term_reward + m.long_term_weight * long_term_reward

/-- The reward formula the specification describes: the long-term component
always contains the youth term, the (gated) possession bonus and the
player-development term. Stated from the spec's words, for comparison with
the source's `calculate_match_reward`. -/
def spec_match_reward (m : ManagerProfile) (r : MatchResult) : ℚ :=
  let short_term_reward : ℚ :=
    3.0 * r.won + 1.0 * r.drawn + 1.0 * r.goals_scored - 0.5 * r.goals_conceded
  let long_term_reward : ℚ :=
    0.5 * r.youth_minutes / 90 +
    (if m.possession_preference > 0.5 then 0.3 * r.possession / 50 else 0) +
    0.2 * r.player_development
  m.short_term_weight * short_term_reward + m.long_term_weight * long_term_reward

/-! ## Q-learning (`manager_brain.py`) -/

/-- States and actions are encoded tuples / hashables in Python; the Q-table
logic is parametric in them, so we fix countable codes. -/
abbrev QState := ℕ

abbrev QAction := ℕ

/-- Port of `QTable.q_values`: a `defaultdict` (default 0.0) from (state, action) to
Q-value, modelled as an association list; `learning_rate` and `gamma` are the
literals `0.1` and `0.95` set in `QTable.__init__` for every table. -/
structure QTable where
  q_values : List ((QState × QAction) × ℚ)
  deriving Repr, DecidableEq

def learning_rate : ℚ := 0.1

def gamma : ℚ := 0.95

/-- Dictionary lookup in a Q-table. -/
def lookupQ : List ((QState × QAction) × ℚ) → QState × QAction → Option ℚ
  | [], _ => none
  | (k, v) :: rest, key => if k = key then some v else lookupQ rest key

/-- Port of `QTable.get_value`: `defaultdict` read, 0.0 for an absent pair. -/
def QTable.get_value (t : QTable) (s : QState) (a : QAction) : ℚ :=
  match lookupQ t.q_values (s, a) with
  | some v => v
  | none => 0

/-- Assignment into the `defaultdict`: replace the first binding for the key,
or add one. -/
def setQ : List ((QState × QAction) × ℚ) → QState × QAction → ℚ → List ((QState × QAction) × ℚ)
  | [], k, v => [(k, v)]
  | (k', v') :: rest, k, v =>
      if k' = k then (k, v) :: rest else (k', v') :: setQ rest k v

/-- Python's `max` over a non-empty sequence: fold keeping the strictly
larger element, so the first of several equal maxima is kept. -/
def pyListMax : ℚ → List ℚ → ℚ
  | x, [] => x
  | x, y :: ys => pyListMax (if y > x then y else x) ys

/-- Port of `QTable.update`: one-step Q-learning update
`Q(s,a) += lr * (reward + gamma * max_a' Q(s',a') - Q(s,a))`.
Python's `max` raises on an empty action list; that case is represented by
an arbitrary value and excluded by hypothesis in the theorems. -/
def QTable.update (t : QTable) (s : QState) (a : QAction) (reward : ℚ)
    (next_state : QState) (possible_next_actions : List QAction) : QTable :=
  let current_q := t.get_value s a
  let next_max_q :=
    match possible_next_actions.map (t.get_value next_state) with
    | [] => 0
    | x :: xs => pyListMax x xs
  let new_q := current_q + learning_rate * (reward + gamma * next_max_q - current_q)
  { q_values := setQ t.q_values (s, a) new_q }

/-- Python's `max(iterable, key=f)` on a non-empty list: left fold replacing
the current best only on a strictly larger key, so ties keep the earlier
element. -/
def pyMaxKey (f : QAction → ℚ) (x : QAction) (xs : List QAction) : QAction :=
  xs.foldl (fun b y => if f y > f b then y else b) x

/-- The exploitation branch of `ManagerBrain.select_action` (the branch taken
when the random draw does not trigger exploration):
`max(possible_actions, key=lambda a: qtable.get_value(state, a))`. -/
def select_action_exploit (t : QTable) (s : QState) : List QAction → Option QAction
  | [] => none
  | x :: xs => some (pyMaxKey (t.get_value s) x xs)

/-! ## Player valuation (`TransferMarket.calculate_player_value`) -/

/-- Python's built-in `round` to the nearest integer, ties to even
(banker's rounding). -/
def pyRound (x : ℚ) : ℤ :=
  let f := ⌊x⌋
  if 2 * x < 2 * (f : ℚ) + 1 then f
  else if 2 * (f : ℚ) + 1 < 2 * x then f + 1
  else if f % 2 = 0 then f else f + 1

/-- Port of `value_modifiers["position_premium"].get(position, 1.0)`. -/
def position_premium (pos : String) : ℚ :=
  if pos = "ST" ∨ pos = "CF" then 1.4
  else if pos = "RW" ∨ pos = "LW" then 1.3
  else if pos = "CAM" then 1.25
  else if pos = "CM" then 1.1
  else if pos = "CDM" then 1.05
  else if pos = "CB" then 1.15
  else if pos = "LB" ∨ pos = "RB" then 1.05
  else if pos = "GK" then 1.2
  else 1.0

/-- Port of `TransferMarket.calculate_player_value`: base value from the overall
rating scaled by age, potential-gap, form, contract, position, squad-role and
recent-injury factors, rounded, floored at £500k. -/
def calculate_player_value (p : Player) : ℤ :=
  let overall := get_overall_rating p
  let base_value := overall * 100000
  let age_factor : ℚ :=
    if p.age ≤ 20 then 0.7 + p.potential / 200
    else if p.age ≤ 24 then 0.9 + p.potential / 300
    else if p.age ≤ 28 then 1.2
    else if p.age ≤ 31 then 1.0
    else if p.age ≤ 34 then 0.7
    else 0.4
  let potential_gap := max 0 (p.potential - overall)
  let potential_factor := 1 + (potential_gap / 100) * 1.8
  let form_factor := 0.8 + get_form_rating p * 0.4
  let contract_factor : ℚ :=
    if p.contract_length ≤ 1 then 0.8
    else if p.contract_length ≥ 4 then 1.1
    else 1.0
  let position_mod := position_premium p.position
  let role_mod : ℚ :=
    if p.squad_role = "STARTER" then 1.2
    else if p.squad_role = "RESERVE" then 1.0
    else if p.squad_role = "YOUTH" then (if p.potential > 70 then 0.95 else 0.85)
    else if p.squad_role = "BENCH" then 0.9
    else 1.0
  let recent_injuries : ℕ := (p.injury_history.filter (fun a => a ≥ p.age - 2)).length
  let injury_factor := max 0.7 (1 - (recent_injuries : ℚ) * 0.1)
  let final_value := base_value * age_factor * potential_factor * form_factor *
    contract_factor * position_mod * role_mod * injury_factor
  max 500000 (pyRound final_value)

/-! ## Teams and the transfer-market world (`team.py`, `transfer.py`)

A `World` carries the shared player store (Python object aliasing: rosters,
listings and the free-agent pool all reference players by id), the acting
club `teamA` (the buying / borrowing / signing team of the call under
verification), the counterparty club `teamB` (the listing's
`selling_team`), and the `TransferMarket` fields the claims mention. -/

/-- The `Team` fields read and written by the transfer functions.  Rosters
are Python lists of player objects, modelled as lists of player ids. -/
structure Team where
  name : String
  budget : ℚ
  transfer_budget : ℚ
  wage_budget : ℚ
  operational_budget : ℚ
  roster : List ℕ
  deriving Repr, DecidableEq

/-- Port of `TransferListing` (dataclass): the `selling_team` reference is the
world's `teamB`. -/
structure TransferListing where
  lid : ℕ
  pid : ℕ
  asking_price : ℚ
  listed_date : ℤ
  expires_in : ℤ
  deriving Repr, DecidableEq

/-- Port of `LoanListing` (dataclass): the parent club is the world's `teamB`. -/
structure LoanListing where
  pid : ℕ
  loan_fee : ℚ
  wage_contribution : ℚ
  duration : ℤ
  listed_date : ℤ
  expires_in : ℤ
  deriving Repr, DecidableEq

structure World where
  store : List (ℕ × Player)
  teamA : Team
  teamB : Team
  transfer_list : List TransferListing
  loan_list : List LoanListing
  free_agents : List ℕ
  current_day : ℤ
  current_window : Option String
  next_lid : ℕ
  deriving Repr, DecidableEq

/-- Placeholder for a dangling player id; never reached in the verified
scenarios (every id used is bound in the store). -/
def defaultPlayer : Player :=
  { name := "", age := 0, potential := 0, position := "", squad_role := "",
    contract_length := 0, wage := 0, desired_wage := 0, team := none,
    transfer_interest := false, attributes := [], form := [], fitness := 0,
    is_injured := false, yellow_cards := 0, red_cards := 0, injury_history := [] }

/-- Dictionary lookup in the player store. -/
def lookupP : List (ℕ × Player) → ℕ → Option Player
  | [], _ => none
  | (k, p) :: rest, pid => if k = pid then some p else lookupP rest pid

/-- Dereference a player id in the store. -/
def playerOf (store : List (ℕ × Player)) (pid : ℕ) : Player :=
  match lookupP store pid with
  | some p => p
  | none => defaultPlayer

/-- Mutate the player object bound to `pid` (all aliases observe it). -/
def setP : List (ℕ × Player) → ℕ → Player → List (ℕ × Player)
  | [], pid, p => [(pid, p)]
  | (k, q) :: rest, pid, p =>
      if k = pid then (pid, p) :: rest else (k, q) :: setP rest pid p

/-- Port of `TransferMarket.get_current_window`: iterate the two windows in
insertion order, return the first whose `start ≤ current_day ≤ end`. -/
def get_current_window (day : ℤ) : Option String :=
  if 1 ≤ day ∧ day ≤ 61 then some "summer"
  else if 183 ≤ day ∧ day ≤ 214 then some "january"
  else none

/-- Port of `TransferMarket.is_transfer_window_open`. -/
def is_transfer_window_open (day : ℤ) : Bool :=
  (get_current_window day).isSome

/-- Port of `Team.handle_transfer`.  Selling: remove the player (first occurrence,
as `list.remove`), credit the fee and distribute 40/30/30 across the
sub-budgets; fails when the player is not on the roster.  Buying: fail when
the fee exceeds the transfer budget or the player's annual wage does not fit
under `wage_budget` minus the current annual wage bill, otherwise append the
player and debit. -/
def handle_transfer (store : List (ℕ × Player)) (t : Team) (pid : ℕ) (fee : ℚ)
    (is_selling : Bool) : Bool × Team :=
  if is_selling then
    if pid ∈ t.roster then
      (true,
        { t with
          roster := t.roster.erase pid
          budget := t.budget + fee
          transfer_budget := t.transfer_budget + fee * 0.4
          wage_budget := t.wage_budget + fee * 0.3
          operational_budget := t.operational_budget + fee * 0.3 })
    else (false, t)
  else
    if fee > t.transfer_budget then (false, t)
    else
      let annual_wage_cost := (playerOf store pid).wage * 52
      let existing_wages := (t.roster.map (fun q => (playerOf store q).wage * 52)).sum
      if annual_wage_cost > t.wage_budget - existing_wages then (false, t)
      else
        (true,
          { t with
            roster := t.roster ++ [pid]
            budget := t.budget - fee
            transfer_budget := t.transfer_budget - fee })

/-- Port of `Team.add_player`: raises (modelled by `Except.error`) when the squad is
full or the new weekly wage bill exceeds `wage_budget / 52`; otherwise
appends the player and points the player's `team` at this club. -/
def add_player (store : List (ℕ × Player)) (t : Team) (pid : ℕ) :
    Except String (List (ℕ × Player) × Team) :=
  if t.roster.length ≥ 40 then .error "Squad size cannot exceed 40 players"
  else
    let current_wages := (t.roster.map (fun q => (playerOf store q).wage)).sum
    let p := playerOf store pid
    if current_wages + p.wage > t.wage_budget / 52 then
      .error "Adding player would exceed wage budget"
    else
      .ok (setP store pid { p with team := some t.name },
           { t with roster := t.roster ++ [pid] })

/-- Port of `TransferMarket.list_player` with an explicit asking price (the random
80–120% pricing only runs when the caller passes no price). -/
def list_player (w : World) (pid : ℕ) (asking_price : ℚ) :
    (Option TransferListing × String) × World :=
  if !(is_transfer_window_open w.current_day) then
    ((none, "Transfer window is closed"), w)
  else
    let l : TransferListing :=
      { lid := w.next_lid, pid := pid, asking_price := asking_price,
        listed_date := w.current_day, expires_in := 30 }
    ((some l, "Player listed successfully"),
     { w with transfer_list := w.transfer_list ++ [l], next_lid := w.next_lid + 1 })

/-- The wage negotiated inside `make_transfer_offer`:
`desired_wage * min(2.0, buyer_budget / 100_000_000) * uniform(0.9, 1.3)`. -/
def mto_wage_demand (w : World) (l : TransferListing) (wageFactor : ℚ) : ℚ :=
  (playerOf w.store l.pid).desired_wage *
    min 2.0 (w.teamA.budget / 100000000) * wageFactor

/-- The player object after `make_transfer_offer` has rewritten its wage,
contract length, transfer interest and club (before the financial steps). -/
def mto_negotiated_player (w : World) (l : TransferListing) (wageFactor : ℚ)
    (contractLen : ℤ) : Player :=
  { playerOf w.store l.pid with
    wage := mto_wage_demand w l wageFactor
    contract_length := contractLen
    transfer_interest := false
    team := some w.teamA.name }

/-- The player store after that in-place mutation. -/
def mto_store1 (w : World) (l : TransferListing) (wageFactor : ℚ)
    (contractLen : ℤ) : List (ℕ × Player) :=
  setP w.store l.pid (mto_negotiated_player w l wageFactor contractLen)

/-- Port of `TransferMarket.make_transfer_offer`, with the random draws passed in:
`agentRate ∈ [0.05, 0.10]` (agent fee), `wageFactor ∈ [0.9, 1.3]` (wage
negotiation), `contractLen` (contract length draw).  `teamA` is the buyer,
`teamB` the listing's selling club. -/
def make_transfer_offer (w : World) (l : TransferListing) (offer : ℚ)
    (agentRate wageFactor : ℚ) (contractLen : ℤ) : (Bool × String) × World :=
  if !(is_transfer_window_open w.current_day) then
    ((false, "Transfer window is closed"), w)
  else if w.teamA.budget < offer then ((false, "Insufficient funds"), w)
  else
    let total_cost := offer + offer * agentRate
    if w.teamA.budget < total_cost then
      ((false, "Cannot afford transfer fee plus agent fees"), w)
    else if offer < l.asking_price * 0.75 then ((false, "Offer too low"), w)
    else
      let wage_demand := mto_wage_demand w l wageFactor
      if wage_demand > w.teamA.wage_budget / (max 1 w.teamA.roster.length : ℕ) then
        ((false, "Player wage demands too high"), w)
      else
        let store1 := mto_store1 w l wageFactor contractLen
        match handle_transfer store1 w.teamA l.pid total_cost false with
        | (false, bt) =>
            ((false, "Buying team financial failure"),
             { w with store := store1, teamA := bt })
        | (true, bt) =>
            match handle_transfer store1 w.teamB l.pid offer true with
            | (false, st) =>
                let bt2 := (handle_transfer store1 bt l.pid total_cost true).2
                ((false, "Selling team financial failure"),
                 { w with store := store1, teamA := bt2, teamB := st })
            | (true, st) =>
                ((true, "Transfer completed!"),
                 { w with
                   store := store1
                   teamA := bt
                   teamB := st
                   transfer_list := w.transfer_list.erase l })

/-- Port of `TransferMarket.make_loan_offer`: `teamA` is the borrowing club, `teamB`
the parent club. -/
def make_loan_offer (w : World) (l : LoanListing) : (Bool × String) × World :=
  if !(is_transfer_window_open w.current_day) then
    ((false, "Transfer window is closed"), w)
  else
    let p := playerOf w.store l.pid
    if w.teamA.budget < l.loan_fee then ((false, "Cannot afford loan fee"), w)
    else
      let weekly_wage_cost := p.wage * (1 - l.wage_contribution)
      if weekly_wage_cost * 4 > w.teamA.wage_budget / (max 1 w.teamA.roster.length : ℕ) then
        ((false, "Cannot afford wage contribution"), w)
      else
        let p' := { p with team := some (w.teamA.name ++ " (on loan)") }
        ((true, "Loan completed!"),
         { w with
           store := setP w.store l.pid p'
           teamA := { w.teamA with budget := w.teamA.budget - l.loan_fee }
           teamB := { w.teamB with budget := w.teamB.budget + l.loan_fee }
           loan_list := w.loan_list.erase l })

/-- The free agent's player object after `sign_free_agent` has rewritten
its wage, contract length and club. -/
def sfa_player (w : World) (pid : ℕ) (wageFactor : ℚ) (contractLen : ℤ) : Player :=
  { playerOf w.store pid with
    wage := (playerOf w.store pid).desired_wage * wageFactor
    contract_length := contractLen
    team := some w.teamA.name }

/-- Port of `TransferMarket.sign_free_agent`, with the random draws explicit:
`bonusWeeks` is the signing-bonus draw (`randint(5,10)` in an emergency,
`randint(10,26)` otherwise) and `wageFactor` the wage draw
(`uniform(1.0,1.2)` / `uniform(1.1,1.4)`).  `Except.error` models the
`ValueError` `Team.add_player` can raise. -/
def sign_free_agent (w : World) (pid : ℕ) (bonusWeeks : ℤ) (wageFactor : ℚ)
    (contractLen : ℤ) : Except (String × World) ((Bool × String) × World) :=
  if pid ∉ w.free_agents then .ok ((false, "Player not available as free agent"), w)
  else
    let emergency_override := w.teamA.roster.length < 16
    let p := playerOf w.store pid
    let signing_bonus := p.desired_wage * (bonusWeeks : ℚ)
    if !emergency_override && w.teamA.budget < signing_bonus then
      .ok ((false, "Cannot afford signing bonus"), w)
    else
      let wage_demand := p.desired_wage * wageFactor
      if !emergency_override &&
          wage_demand > w.teamA.wage_budget / (max 1 w.teamA.roster.length : ℕ) then
        .ok ((false, "Wage demands too high"), w)
      else
        let store1 := setP w.store pid (sfa_player w pid wageFactor contractLen)
        let t1 := { w.teamA with budget := w.teamA.budget - signing_bonus }
        match add_player store1 t1 pid with
        | .error e =>
            -- the ValueError propagates; the player mutation and the bonus
            -- debit performed before the `add_player` call persist
            .error (e, { w with store := store1, teamA := t1 })
        | .ok (store2, t2) =>
            .ok ((true, "Free agent signed!"),
                 { w with
                   store := store2
                   teamA := t2
                   free_agents := w.free_agents.erase pid })

/-- Port of `TransferMarket.advance_day`: bump the day counter, keep only listings
and loan listings with `(current_day - listed_date) ≤ expires_in`, refresh
the cached window name. -/
def advance_day (w : World) : World :=
  let day := w.current_day + 1
  { w with
    current_day := day
    transfer_list := w.transfer_list.filter (fun l => day - l.listed_date ≤ l.expires_in)
    loan_list := w.loan_list.filter (fun l => day - l.listed_date ≤ l.expires_in)
    current_window := get_current_window day }

/-! ## Lineup validation and the scoreboard (`match.py`) -/

/-- The goalkeeper-repair step of `Match._validate_lineup`: when no slot is
labelled `"GK"`, pull an available goalkeeper from the roster, replacing
slot 0 (or appending to an empty lineup). -/
def vl_gkfix (teamPlayers : List Player) (av : List (Player × String)) :
    List (Player × String) :=
  if ((av.filter (fun sl => sl.2 == "GK")).length) < 1 then
    match teamPlayers.filter
        (fun p => p.position == "GK" && is_available_for_selection p) with
    | [] => av
    | g :: _ =>
        match av with
        | [] => [(g, "GK")]
        | _ :: rest => (g, "GK") :: rest
  else av

/-- The size-enforcement step of `Match._validate_lineup`: truncate to 11;
else, if fewer than 7 remain, refill from the available roster players not
already picked, up to 11, and raise when still fewer than 7. -/
def vl_stage2 (teamPlayers : List Player) (av : List (Player × String)) :
    Except String (List (Player × String)) :=
  if av.length > 11 then .ok (av.take 11)
  else if av.length < 7 then
    let remaining := teamPlayers.filter
      (fun p => !((av.map Prod.fst).contains p) && is_available_for_selection p)
    let filled := av ++ (remaining.take (11 - av.length)).map (fun p => (p, p.position))
    if filled.length < 7 then .error "Insufficient players available"
    else .ok filled
  else .ok av

/-- Port of `Match._validate_lineup`.  A slot pairs a player with its formation
position label.  Exactly as in the source: drop unavailable players, repair
the goalkeeper slot, then enforce the 7–11 size window, raising
(`Except.error`) when fewer than 7 players can be fielded. -/
def validate_lineup (lineup : List Player) (positions : List String)
    (teamPlayers : List Player) : Except String (List (Player × String)) :=
  vl_stage2 teamPlayers
    (vl_gkfix teamPlayers
      ((lineup.zip positions).filter (fun sl => is_available_for_selection sl.1)))

/-- One simulated minute's effect on the scoreboard: in
`Match.simulate_minute` the only write to `score` is
`self.score[score_idx] += 1` when a shot becomes a goal.  `some true` is a
home goal, `some false` an away goal, `none` a minute without a goal. -/
def minute_score_step (s : ℤ × ℤ) (goal : Option Bool) : ℤ × ℤ :=
  match goal with
  | none => s
  | some true => (s.1 + 1, s.2)
  | some false => (s.1, s.2 + 1)

/-- The scoreboard at full time: fold of the per-minute effects over the
initial `[0, 0]` set in `Match.__init__`. -/
def match_score (events : List (Option Bool)) : ℤ × ℤ :=
  events.foldl minute_score_step (0, 0)

/-! ## Concrete scenarios used to instantiate the theorems -/

/-- A roster filler on the buying club's books. -/
def fillerPlayer : Player :=
  { defaultPlayer with
    name := "Filler"
    age := 27
    wage := 1000
    desired_wage := 1000
    team := some "BuyerFC" }

/-- The player listed for sale by `SellerFC`. -/
def starPlayer : Player :=
  { defaultPlayer with
    name := "Star"
    age := 27
    wage := 1000
    desired_wage := 1000
    team := some "SellerFC"
    transfer_interest := true }

/-- Listing of `starPlayer` (pid 2) at an asking price of £1,000,000. -/
def lC1 : TransferListing :=
  { lid := 0, pid := 2, asking_price := 1000000, listed_date := 5, expires_in := 30 }

/-- A summer-window day with a well-funded buyer: every check other than the
price floor passes. -/
def wC1 : World :=
  { store := [(1, fillerPlayer), (2, starPlayer)]
    teamA := { name := "BuyerFC", budget := 100000000, transfer_budget := 2000000,
               wage_budget := 10000000, operational_budget := 0, roster := [1] }
    teamB := { name := "SellerFC", budget := 0, transfer_budget := 0,
               wage_budget := 0, operational_budget := 0, roster := [2] }
    transfer_list := [lC1]
    loan_list := []
    free_agents := []
    current_day := 10
    current_window := some "summer"
    next_lid := 5 }

def lC2 : TransferListing :=
  { lid := 0, pid := 2, asking_price := 1000000, listed_date := 5, expires_in := 30 }

/-- A buyer whose overall `budget` covers the fee plus agent fee but whose
`transfer_budget` does not, so `Team.handle_transfer` (buying side) fails
after the player object has already been mutated. -/
def wC2 : World :=
  { store := [(1, fillerPlayer), (2, starPlayer)]
    teamA := { name := "BuyerFC", budget := 2000000, transfer_budget := 100,
               wage_budget := 10000000, operational_budget := 0, roster := [1] }
    teamB := { name := "SellerFC", budget := 0, transfer_budget := 0,
               wage_budget := 0, operational_budget := 0, roster := [2] }
    transfer_list := [lC2]
    loan_list := []
    free_agents := []
    current_day := 10
    current_window := some "summer"
    next_lid := 5 }

/-- A free agent waiting in the pool. -/
def freeAgentPlayer : Player :=
  { defaultPlayer with name := "Agent", age := 27, desired_wage := 100 }

/-- A day (100) between the summer and january windows, with an
under-strength club (empty roster) and one free agent available. -/
def wC4 : World :=
  { store := [(1, freeAgentPlayer)]
    teamA := { name := "Emergency FC", budget := 50000, transfer_budget := 0,
               wage_budget := 10400, operational_budget := 0, roster := [] }
    teamB := { name := "Other FC", budget := 0, transfer_budget := 0,
               wage_budget := 0, operational_budget := 0, roster := [] }
    transfer_list := []
    loan_list := []
    free_agents := [1]
    current_day := 100
    current_window := none
    next_lid := 0 }

def lC5 : TransferListing :=
  { lid := 0, pid := 1, asking_price := 500000, listed_date := 3, expires_in := 30 }

/-- Market state used to instantiate the `advance_day` theorem. -/
def wC5 : World :=
  { store := [(1, starPlayer)]
    teamA := { name := "A", budget := 0, transfer_budget := 0,
               wage_budget := 0, operational_budget := 0, roster := [] }
    teamB := { name := "B", budget := 0, transfer_budget := 0,
               wage_budget := 0, operational_budget := 0, roster := [1] }
    transfer_list := [lC5]
    loan_list := []
    free_agents := []
    current_day := 5
    current_window := some "summer"
    next_lid := 1 }

/-- A peak-age player with three recent injuries: ageing him past 28 clears
the "recent" injury window and raises his market value. -/
def injuredPeakPlayer : Player :=
  { defaultPlayer with
    name := "Glass"
    age := 25
    potential := 80
    position := "XX"
    squad_role := "RESERVE"
    contract_length := 3
    wage := 1000
    desired_wage := 1000
    team := some "S"
    attributes := [[80]]
    form := [0.5]
    fitness := 100
    injury_history := [23, 23, 23] }

/-- The same snapshot with an empty injury history, for the amended
age-monotonicity statement. -/
def healthyPlayer : Player :=
  { injuredPeakPlayer with injury_history := [] }

/-- An available outfield player for the lineup scenarios. -/
def availOutfield (i : ℕ) : Player :=
  { defaultPlayer with
    name := toString i
    age := 25
    position := "CM"
    fitness := 100
    form := [0.5] }

/-- An available goalkeeper. -/
def availGK : Player :=
  { defaultPlayer with name := "keeper", age := 30, position := "GK", fitness := 100 }

/-- A club with exactly 7 available players (6 outfielders and a keeper). -/
def teamC9 : List Player :=
  [availGK, availOutfield 1, availOutfield 2, availOutfield 3,
   availOutfield 4, availOutfield 5, availOutfield 6]

/-- The emergency-signing club: 0 players (< 16), a £3,000 budget and a wage
budget far too small for the free agent's £1,000 wage demand. -/
def wC10 : World :=
  { store := [(1, { defaultPlayer with name := "FA", age := 27, desired_wage := 1000 })]
    teamA := { name := "Emergency FC", budget := 3000, transfer_budget := 0,
               wage_budget := 100, operational_budget := 0, roster := [] }
    teamB := { name := "Other FC", budget := 0, transfer_budget := 0,
               wage_budget := 0, operational_budget := 0, roster := [] }
    transfer_list := []
    loan_list := []
    free_agents := [1]
    current_day := 10
    current_window := some "summer"
    next_lid := 0 }

/-- Like `wC10` but with a wage budget large enough for `Team.add_player`'s
internal check, so the emergency signing can complete; the £5,000–£10,000
signing bonus still exceeds the £3,000 budget. -/
def wC10ok : World :=
  { wC10 with
    teamA := { name := "Emergency FC", budget := 3000, transfer_budget := 0,
               wage_budget := 104000, operational_budget := 0, roster := [] } }

/-! ## Helper lemmas -/

theorem lookupP_setP_self (store : List (ℕ × Player)) (pid : ℕ) (p : Player) :
    lookupP (setP store pid p) pid = some p := by
  induction store with
  | nil => simp [setP, lookupP]
  | cons kv rest ih =>
      obtain ⟨k, q⟩ := kv
      by_cases h : k = pid
      · subst h; simp [setP, lookupP]
      · simp [setP, h, lookupP, ih]

theorem lookupP_setP_ne (store : List (ℕ × Player)) (pid q : ℕ) (p : Player)
    (h : q ≠ pid) : lookupP (setP store pid p) q = lookupP store q := by
  induction store with
  | nil => simp [setP, lookupP, Ne.symm h]
  | cons kv rest ih =>
      obtain ⟨k, r⟩ := kv
      by_cases hk : k = pid
      · subst hk
        simp [setP, lookupP, Ne.symm h]
      · simp only [setP, if_neg hk, lookupP]
        by_cases hq : k = q
        · simp [hq]
        · simp [hq, ih]

theorem playerOf_setP_self (store : List (ℕ × Player)) (pid : ℕ) (p : Player) :
    playerOf (setP store pid p) pid = p := by
  simp [playerOf, lookupP_setP_self]

theorem playerOf_setP_ne (store : List (ℕ × Player)) (pid q : ℕ) (p : Player)
    (h : q ≠ pid) : playerOf (setP store pid p) q = playerOf store q := by
  simp [playerOf, lookupP_setP_ne store pid q p h]

theorem lookupQ_setQ_self (l : List ((QState × QAction) × ℚ)) (k : QState × QAction)
    (v : ℚ) : lookupQ (setQ l k v) k = some v := by
  induction l with
  | nil => simp [setQ, lookupQ]
  | cons kv rest ih =>
      obtain ⟨k', v'⟩ := kv
      by_cases h : k' = k
      · subst h; simp [setQ, lookupQ]
      · simp [setQ, h, lookupQ, ih]

theorem lookupQ_setQ_ne (l : List ((QState × QAction) × ℚ)) (k k' : QState × QAction)
    (v : ℚ) (h : k' ≠ k) : lookupQ (setQ l k v) k' = lookupQ l k' := by
  induction l with
  | nil => simp [setQ, lookupQ, Ne.symm h]
  | cons kv rest ih =>
      obtain ⟨k0, v0⟩ := kv
      by_cases hk : k0 = k
      · subst hk
        simp [setQ, lookupQ, Ne.symm h]
      · simp only [setQ, if_neg hk, lookupQ]
        by_cases hq : k0 = k'
        · simp [hq]
        · simp [hq, ih]

theorem start_le_pyListMax (x : ℚ) (xs : List ℚ) : x ≤ pyListMax x xs := by
  induction xs generalizing x with
  | nil => simp [pyListMax]
  | cons y ys ih =>
      simp only [pyListMax]
      by_cases h : y > x
      · exact le_trans (le_of_lt h) (by simpa [h] using ih y)
      · simpa [h] using ih x

theorem le_pyListMax (x : ℚ) (xs : List ℚ) : ∀ y ∈ x :: xs, y ≤ pyListMax x xs := by
  induction xs generalizing x with
  | nil =>
      intro y hy
      have hyx : y = x := by simpa using hy
      subst hyx
      simp [pyListMax]
  | cons z zs ih =>
      intro y hy
      simp only [pyListMax]
      rcases List.mem_cons.mp hy with hyx | hy'
      · subst hyx
        by_cases h : z > y
        · exact le_trans (le_of_lt h) (by simpa [h] using start_le_pyListMax z zs)
        · simpa [h] using start_le_pyListMax y zs
      · rcases List.mem_cons.mp hy' with hyz | hyzs
        · subst hyz
          by_cases h : y > x
          · simpa [h] using start_le_pyListMax y zs
          · exact le_trans (not_lt.mp h) (by simpa [h] using start_le_pyListMax x zs)
        · by_cases h : z > x
          · simpa [h] using ih z y (List.mem_cons_of_mem z hyzs)
          · simpa [h] using ih x y (List.mem_cons_of_mem x hyzs)

theorem pyListMax_mem (x : ℚ) (xs : List ℚ) : pyListMax x xs ∈ x :: xs := by
  induction xs generalizing x with
  | nil => simp [pyListMax]
  | cons y ys ih =>
      simp only [pyListMax]
      by_cases h : y > x
      · rw [if_pos h]
        exact List.mem_cons_of_mem x (ih y)
      · rw [if_neg h]
        rcases List.mem_cons.mp (ih x) with h1 | h1
        · rw [h1]; exact List.mem_cons_self x _
        · exact List.mem_cons_of_mem x (List.mem_cons_of_mem y h1)

/-- Behaviour of Python's `max(…, key=f)` fold: the result is either the
seed (when nothing beats it) or the first element of the list that is
strictly greater than everything before it and at least everything after. -/
theorem pyMaxKey_spec (f : QAction → ℚ) (xs : List QAction) (x : QAction) :
    (pyMaxKey f x xs = x ∧ ∀ y ∈ xs, f y ≤ f x) ∨
    ((∃ pre post, xs = pre ++ pyMaxKey f x xs :: post ∧
        (∀ y ∈ pre, f y < f (pyMaxKey f x xs)) ∧
        (∀ y ∈ post, f y ≤ f (pyMaxKey f x xs))) ∧
      f x < f (pyMaxKey f x xs)) := by
  induction xs generalizing x with
  | nil => left; exact ⟨rfl, by simp⟩
  | cons y ys ih =>
      have hstep : pyMaxKey f x (y :: ys) = pyMaxKey f (if f y > f x then y else x) ys := by
        simp [pyMaxKey]
      by_cases hfy : f y > f x
      · rw [hstep, if_pos hfy]
        rcases ih y with ⟨heq, hall⟩ | ⟨⟨pre', post', hsplit, hpre, hpost⟩, hlt⟩
        · right
          refine ⟨⟨[], ys, by simp [heq], by simp, by simpa [heq] using hall⟩, ?_⟩
          rw [heq]; exact hfy
        · right
          refine ⟨⟨y :: pre', post', by rw [List.cons_append, ← hsplit], ?_, hpost⟩,
            lt_trans hfy hlt⟩
          intro z hz
          rcases List.mem_cons.mp hz with hzy | hz'
          · subst hzy; exact hlt
          · exact hpre z hz'
      · rw [hstep, if_neg hfy]
        rcases ih x with ⟨heq, hall⟩ | ⟨⟨pre', post', hsplit, hpre, hpost⟩, hlt⟩
        · left
          refine ⟨heq, ?_⟩
          intro z hz
          rcases List.mem_cons.mp hz with hzy | hz'
          · subst hzy; exact not_lt.mp hfy
          · exact hall z hz'
        · right
          refine ⟨⟨y :: pre', post', by rw [List.cons_append, ← hsplit], ?_, hpost⟩, hlt⟩
          intro z hz
          rcases List.mem_cons.mp hz with hzy | hz'
          · subst hzy; exact lt_of_le_of_lt (not_lt.mp hfy) hlt
          · exact hpre z hz'

theorem floor_le_pyRound (x : ℚ) : ⌊x⌋ ≤ pyRound x := by
  simp only [pyRound]
  split_ifs <;> omega

theorem pyRound_le_floor_add_one (x : ℚ) : pyRound x ≤ ⌊x⌋ + 1 := by
  simp only [pyRound]
  split_ifs <;> omega

theorem pyRound_mono {x y : ℚ} (h : x ≤ y) : pyRound x ≤ pyRound y := by
  rcases lt_or_le ⌊x⌋ ⌊y⌋ with hf | hf
  · calc pyRound x ≤ ⌊x⌋ + 1 := pyRound_le_floor_add_one x
      _ ≤ ⌊y⌋ := by omega
      _ ≤ pyRound y := floor_le_pyRound y
  · have hfe : ⌊x⌋ = ⌊y⌋ := le_antisymm (Int.floor_le_floor h) hf
    simp only [pyRound, hfe]
    split_ifs <;> first | omega | linarith

theorem get_overall_rating_nonneg (p : Player)
    (hattr : ∀ cat ∈ p.attributes, ∀ v ∈ cat, 0 ≤ v) : 0 ≤ get_overall_rating p := by
  simp only [get_overall_rating]
  split_ifs with h
  · apply div_nonneg
    · apply List.sum_nonneg
      intro x hx
      obtain ⟨cat, hcat, rfl⟩ := List.mem_map.mp hx
      exact List.sum_nonneg (hattr cat hcat)
    · exact_mod_cast Nat.zero_le _
  · norm_num

theorem get_form_rating_nonneg (p : Player) (hform : ∀ v ∈ p.form, 0 ≤ v) :
    0 ≤ get_form_rating p := by
  simp only [get_form_rating]
  split_ifs with h
  · norm_num
  · exact div_nonneg (List.sum_nonneg hform) (by exact_mod_cast Nat.zero_le _)

theorem position_premium_pos (s : String) : 0 < position_premium s := by
  simp only [position_premium]
  split_ifs <;> norm_num

theorem get_overall_rating_update (p : Player) (a : ℤ) (ih : List ℤ) :
    get_overall_rating { p with age := a, injury_history := ih } =
      get_overall_rating p := rfl

theorem get_form_rating_update (p : Player) (a : ℤ) (ih : List ℤ) :
    get_form_rating { p with age := a, injury_history := ih } =
      get_form_rating p := rfl

theorem window_open_of (d : ℤ)
    (hd : (1 ≤ d ∧ d ≤ 61) ∨ (183 ≤ d ∧ d ≤ 214)) :
    is_transfer_window_open d = true := by
  unfold is_transfer_window_open get_current_window
  split_ifs with hA hB
  · rfl
  · rfl
  · exact absurd hd (not_or.mpr ⟨hA, hB⟩)

theorem window_closed_of (d : ℤ)
    (hd : ¬ ((1 ≤ d ∧ d ≤ 61) ∨ (183 ≤ d ∧ d ≤ 214))) :
    is_transfer_window_open d = false := by
  unfold is_transfer_window_open get_current_window
  split_ifs with hA hB
  · exact absurd (Or.inl hA) hd
  · exact absurd (Or.inr hB) hd
  · rfl

theorem setP_setP (store : List (ℕ × Player)) (pid : ℕ) (p q : Player) :
    setP (setP store pid p) pid q = setP store pid q := by
  induction store with
  | nil => simp [setP]
  | cons kv rest ih =>
      obtain ⟨k, r⟩ := kv
      by_cases h : k = pid
      · subst h; simp [setP]
      · simp [setP, h, ih]

/-- Shared shape of a successful emergency free-agent signing: with the
squad under 16 players, the budget and wage rejections are skipped, the
bonus is debited unconditionally, and — provided `Team.add_player`'s own
wage-budget check passes — the player joins the roster. -/
theorem sign_free_agent_emergency (w : World) (pid : ℕ) (bw : ℤ) (wf : ℚ) (cl : ℤ)
    (hfa : pid ∈ w.free_agents)
    (hem : w.teamA.roster.length < 16)
    (hnr : pid ∉ w.teamA.roster)
    (hfit : ¬ ((w.teamA.roster.map (fun q => (playerOf w.store q).wage)).sum +
        (playerOf w.store pid).desired_wage * wf > w.teamA.wage_budget / 52)) :
    sign_free_agent w pid bw wf cl =
      .ok ((true, "Free agent signed!"),
        { w with
          store := setP w.store pid (sfa_player w pid wf cl)
          teamA := { w.teamA with
            budget := w.teamA.budget - (playerOf w.store pid).desired_wage * (bw : ℚ)
            roster := w.teamA.roster ++ [pid] }
          free_agents := w.free_agents.erase pid }) := by
  have hd16 : decide (w.teamA.roster.length < 16) = true := decide_eq_true hem
  have hteam : { sfa_player w pid wf cl with team := some w.teamA.name } =
      sfa_player w pid wf cl := rfl
  have hmap : w.teamA.roster.map
      (fun q => (playerOf (setP w.store pid (sfa_player w pid wf cl)) q).wage) =
      w.teamA.roster.map (fun q => (playerOf w.store q).wage) := by
    apply List.map_congr_left
    intro q hq
    have hqne : q ≠ pid := by
      intro heq; subst heq; exact hnr hq
    rw [playerOf_setP_ne _ _ _ _ hqne]
  have hadd : add_player (setP w.store pid (sfa_player w pid wf cl))
      { w.teamA with
        budget := w.teamA.budget - (playerOf w.store pid).desired_wage * (bw : ℚ) }
      pid =
      .ok (setP w.store pid (sfa_player w pid wf cl),
        { w.teamA with
          budget := w.teamA.budget - (playerOf w.store pid).desired_wage * (bw : ℚ)
          roster := w.teamA.roster ++ [pid] }) := by
    unfold add_player
    dsimp only
    rw [if_neg (by omega), hmap, playerOf_setP_self]
    rw [if_neg (by simpa [sfa_player] using hfit)]
    rw [hteam, setP_setP]
  unfold sign_free_agent
  rw [if_neg (not_not_intro hfa)]
  simp only [hd16, Bool.not_true, Bool.false_and, Bool.false_eq_true, if_false]
  rw [hadd]

theorem handle_transfer_buy_ok (store : List (ℕ × Player)) (t : Team) (pid : ℕ)
    (fee : ℚ) (h1 : ¬ fee > t.transfer_budget)
    (h2 : ¬ (playerOf store pid).wage * 52 >
        t.wage_budget - (t.roster.map (fun q => (playerOf store q).wage * 52)).sum) :
    handle_transfer store t pid fee false =
      (true,
        { t with
          roster := t.roster ++ [pid]
          budget := t.budget - fee
          transfer_budget := t.transfer_budget - fee }) := by
  simp [handle_transfer, h1, h2]

theorem handle_transfer_sell_ok (store : List (ℕ × Player)) (t : Team) (pid : ℕ)
    (fee : ℚ) (h : pid ∈ t.roster) :
    handle_transfer store t pid fee true =
      (true,
        { t with
          roster := t.roster.erase pid
          budget := t.budget + fee
          transfer_budget := t.transfer_budget + fee * 0.4
          wage_budget := t.wage_budget + fee * 0.3
          operational_budget := t.operational_budget + fee * 0.3 }) := by
  simp [handle_transfer, h]

/-! ## Claim theorems -/

/-- Claim C3 (code-bug evidence): the claim says `calculate_match_reward`'s
long-term component always contains the youth, (gated) possession and
player-development terms.  Because Python's conditional expression binds
looser than `+`, the source instead computes the youth and possession terms
with no development term when `possession_preference > 0.5` (reward 33/20
instead of the described 7/4 on the first record), and the development term
alone with no youth term otherwise (reward 8/5 instead of 37/20 on the
second record). -/
theorem C3_long_term_reward_precedence :
    calculate_match_reward ⟨1/2, 1/2, 3/5⟩ ⟨1, 0, 0, 0, 0, 50, 1⟩ = 33/20 ∧
    spec_match_reward ⟨1/2, 1/2, 3/5⟩ ⟨1, 0, 0, 0, 0, 50, 1⟩ = 7/4 ∧
    calculate_match_reward ⟨1/2, 1/2, 2/5⟩ ⟨1, 0, 0, 0, 90, 50, 1⟩ = 8/5 ∧
    spec_match_reward ⟨1/2, 1/2, 2/5⟩ ⟨1, 0, 0, 0, 90, 50, 1⟩ = 37/20 ∧
    (33/20 : ℚ) ≠ 7/4 := by
  norm_num [calculate_match_reward, spec_match_reward]

/-- Claim C5: `advance_day` increments the day counter by exactly one; every
listing remaining in the transfer list and in the loan list satisfies
`(current_day - listed_date) ≤ expires_in`; the resulting lists are
sublists of the previous ones (so nothing removed earlier is re-inserted);
and no team roster or budget is mutated. -/
theorem C5_advance_day_invariants (w : World) :
    (advance_day w).current_day = w.current_day + 1 ∧
    (∀ l ∈ (advance_day w).transfer_list,
        (advance_day w).current_day - l.listed_date ≤ l.expires_in) ∧
    (∀ l ∈ (advance_day w).loan_list,
        (advance_day w).current_day - l.listed_date ≤ l.expires_in) ∧
    (advance_day w).transfer_list.Sublist w.transfer_list ∧
    (advance_day w).loan_list.Sublist w.loan_list ∧
    (advance_day w).teamA = w.teamA ∧
    (advance_day w).teamB = w.teamB ∧
    (advance_day w).store = w.store := by
  refine ⟨rfl, ?_, ?_, List.filter_sublist _, List.filter_sublist _, rfl, rfl, rfl⟩
  · intro l hl
    exact of_decide_eq_true (List.mem_filter.mp hl).2
  · intro l hl
    exact of_decide_eq_true (List.mem_filter.mp hl).2

/-- Witness for C5 at a concrete market state with one live listing. -/
theorem C5_witness :
    (advance_day wC5).current_day = wC5.current_day + 1 ∧
    (advance_day wC5).current_day - lC5.listed_date ≤ lC5.expires_in := by
  have h := C5_advance_day_invariants wC5
  refine ⟨h.1, h.2.1 lC5 ?_⟩
  norm_num [advance_day, wC5, lC5]

/-- Claim C6: `QTable.get_value` of a never-updated pair is 0; `update` sets
`Q(s,a)` to exactly `Q(s,a) + 0.1*(reward + 0.95*max_{a' ∈ acts} Q(s',a')
- Q(s,a))` (the max being over the given next actions), leaves every other
entry unchanged, and `learning_rate`/`gamma` are the fixed literals
0.1 and 0.95. -/
theorem C6_qtable_update (t : QTable) (s : QState) (a : QAction) (r : ℚ)
    (ns : QState) (b : QAction) (bs : List QAction)
    (s0 : QState) (a0 : QAction)
    (h0 : lookupQ t.q_values (s0, a0) = none) :
    t.get_value s0 a0 = 0 ∧
    learning_rate = 1/10 ∧ gamma = 19/20 ∧
    (t.update s a r ns (b :: bs)).get_value s a =
      t.get_value s a +
        (1/10) * (r + (19/20) * pyListMax (t.get_value ns b) (bs.map (t.get_value ns))
          - t.get_value s a) ∧
    pyListMax (t.get_value ns b) (bs.map (t.get_value ns)) ∈ (b :: bs).map (t.get_value ns) ∧
    (∀ c ∈ b :: bs, t.get_value ns c ≤
        pyListMax (t.get_value ns b) (bs.map (t.get_value ns))) ∧
    (∀ s' a', (s', a') ≠ (s, a) →
      (t.update s a r ns (b :: bs)).get_value s' a' = t.get_value s' a') := by
  refine ⟨?_, by norm_num [learning_rate], by norm_num [gamma], ?_, ?_, ?_, ?_⟩
  · simp [QTable.get_value, h0]
  · simp only [QTable.update, QTable.get_value, lookupQ_setQ_self, List.map_cons]
    norm_num [learning_rate, gamma]
  · simpa using pyListMax_mem (t.get_value ns b) (bs.map (t.get_value ns))
  · intro c hc
    rcases List.mem_cons.mp hc with hcb | hcbs
    · subst hcb
      exact le_pyListMax _ _ _ (List.mem_cons_self _ _)
    · exact le_pyListMax _ _ _ (List.mem_cons_of_mem _ (List.mem_map_of_mem _ hcbs))
  · intro s' a' hne
    simp [QTable.update, QTable.get_value, lookupQ_setQ_ne _ _ _ _ hne]

/-- Witness for C6: a table holding only Q((0,0),0)=5; the pair (1,1) reads
as 0, and updating (0,0) with reward 1 over next actions [0,1] lands on
5 + 0.1*(1 + 0.95*5 - 5) = 203/40. -/
theorem C6_witness :
    (⟨[((0, 0), 5)]⟩ : QTable).get_value 1 1 = 0 ∧
    ((⟨[((0, 0), 5)]⟩ : QTable).update 0 0 1 0 [0, 1]).get_value 0 0 = 203/40 := by
  have h := C6_qtable_update ⟨[((0, 0), 5)]⟩ 0 0 1 0 0 [1] 1 1 (by simp [lookupQ])
  refine ⟨h.1, ?_⟩
  rw [h.2.2.2.1]
  norm_num [QTable.get_value, lookupQ, pyListMax, Prod.ext_iff]

/-- Claim C7: in the exploitation branch of `select_action`, the returned
action belongs to the candidate list, carries the maximal stored Q-value for
the state, and is the earliest such candidate: the list splits as
`pre ++ r :: post` with every element of `pre` strictly below the maximum. -/
theorem C7_exploit_argmax (t : QTable) (s : QState) (x r : QAction) (xs : List QAction)
    (hr : select_action_exploit t s (x :: xs) = some r) :
    r ∈ x :: xs ∧
    (∀ b ∈ x :: xs, t.get_value s b ≤ t.get_value s r) ∧
    ∃ pre post, x :: xs = pre ++ r :: post ∧
      ∀ b ∈ pre, t.get_value s b < t.get_value s r := by
  have hr' : pyMaxKey (t.get_value s) x xs = r := by
    simpa [select_action_exploit] using hr
  rcases pyMaxKey_spec (t.get_value s) xs x with ⟨heq, hall⟩ |
    ⟨⟨pre, post, hsplit, hpre, hpost⟩, hlt⟩
  · have hxr : x = r := by rw [← hr', heq]
    subst hxr
    refine ⟨List.mem_cons_self _ _, ?_, [], xs, rfl, by simp⟩
    intro b hb
    rcases List.mem_cons.mp hb with hbx | hbxs
    · subst hbx; exact le_refl _
    · exact hall b hbxs
  · rw [hr'] at hsplit hpre hpost hlt
    refine ⟨List.mem_cons_of_mem x (hsplit ▸ List.mem_append_right pre (List.mem_cons_self _ _)),
      ?_, x :: pre, post, by simp [hsplit], ?_⟩
    · intro b hb
      rcases List.mem_cons.mp hb with hbx | hbxs
      · subst hbx; exact le_of_lt hlt
      · rw [hsplit] at hbxs
        rcases List.mem_append.mp hbxs with hbpre | hbrest
        · exact le_of_lt (hpre b hbpre)
        · rcases List.mem_cons.mp hbrest with hbr | hbpost
          · subst hbr; exact le_refl _
          · exact hpost b hbpost
    · intro b hb
      rcases List.mem_cons.mp hb with hbx | hbpre
      · subst hbx; exact hlt
      · exact hpre b hbpre

/-- Claim C2 (code-bug evidence): at `wC2` all checks up to the wage
negotiation pass, `Team.handle_transfer` then fails on the buyer's transfer
budget, and `make_transfer_offer` reports "Buying team financial failure" —
but the player object (aliased from the seller's roster) has already had its
`team` rewritten from "SellerFC" to "BuyerFC" and its wage rewritten, while
the rosters still show him at the seller: touched state survives a reported
failure. -/
theorem C2_failure_leaves_player_mutated :
    (make_transfer_offer wC2 lC2 1000000 (1/20) 1 3).1 =
      (false, "Buying team financial failure") ∧
    (playerOf wC2.store 2).team = some "SellerFC" ∧
    (playerOf (make_transfer_offer wC2 lC2 1000000 (1/20) 1 3).2.store 2).team =
      some "BuyerFC" ∧
    (playerOf (make_transfer_offer wC2 lC2 1000000 (1/20) 1 3).2.store 2).wage ≠
      (playerOf wC2.store 2).wage ∧
    (make_transfer_offer wC2 lC2 1000000 (1/20) 1 3).2.teamA.roster = wC2.teamA.roster ∧
    (make_transfer_offer wC2 lC2 1000000 (1/20) 1 3).2.teamB.roster = wC2.teamB.roster := by
  norm_num [make_transfer_offer, mto_wage_demand, mto_negotiated_player, mto_store1,
    wC2, lC2, fillerPlayer, starPlayer, defaultPlayer, playerOf, lookupP, setP,
    handle_transfer, is_transfer_window_open, get_current_window]

/-- Claim C1 (counterexample): with asking price P = 1,000,000 and every other
check passing, an offer of 790,000 = 0.79×P is accepted outright — it is not
rejected as "Offer too low", contradicting the claimed 0.8×P floor. -/
theorem C1_counterexample_079_accepted :
    (790000 : ℚ) = 0.79 * lC1.asking_price ∧
    (make_transfer_offer wC1 lC1 790000 (1/20) 1 3).1 = (true, "Transfer completed!") := by
  constructor
  · norm_num [lC1]
  · norm_num [make_transfer_offer, mto_wage_demand, mto_negotiated_player, mto_store1,
      wC1, lC1, fillerPlayer, starPlayer, defaultPlayer, playerOf, lookupP, setP,
      handle_transfer, is_transfer_window_open, get_current_window]

/-- Claim C1 (amended): the acceptance floor is 75% of the asking price.  With
the window open and the buyer's budget covering the offer and the offer plus
agent fee, `make_transfer_offer` returns the "Offer too low" rejection iff
the offer is strictly below `0.75 × asking_price`; when moreover the wage
check, the buyer-side transfer-budget and wage-bill checks and the seller
roster check pass, any offer at or above the 75% floor completes the
transfer. -/
theorem C1_amended_seventyfive_floor (w : World) (l : TransferListing)
    (offer agentRate wageFactor : ℚ) (contractLen : ℤ)
    (hw : is_transfer_window_open w.current_day = true)
    (hb1 : ¬ w.teamA.budget < offer)
    (hb2 : ¬ w.teamA.budget < offer + offer * agentRate) :
    ((make_transfer_offer w l offer agentRate wageFactor contractLen).1 =
        (false, "Offer too low") ↔ offer < l.asking_price * 0.75) ∧
    (¬ mto_wage_demand w l wageFactor >
        w.teamA.wage_budget / (max 1 w.teamA.roster.length : ℕ) →
      ¬ offer + offer * agentRate > w.teamA.transfer_budget →
      l.pid ∉ w.teamA.roster →
      ¬ mto_wage_demand w l wageFactor * 52 >
          w.teamA.wage_budget -
            (w.teamA.roster.map (fun q => (playerOf w.store q).wage * 52)).sum →
      l.pid ∈ w.teamB.roster →
      l.asking_price * 0.75 ≤ offer →
      (make_transfer_offer w l offer agentRate wageFactor contractLen).1 =
        (true, "Transfer completed!")) := by
  constructor
  · simp only [make_transfer_offer, hw, Bool.not_true, Bool.false_eq_true, if_false,
      if_neg hb1, if_neg hb2]
    by_cases hof : offer < l.asking_price * 0.75
    · simp [hof]
    · rw [if_neg hof]
      have hres :
          ((if mto_wage_demand w l wageFactor >
                w.teamA.wage_budget / (max 1 w.teamA.roster.length : ℕ) then
              ((false, "Player wage demands too high"), w)
            else
              match handle_transfer (mto_store1 w l wageFactor contractLen) w.teamA l.pid
                  (offer + offer * agentRate) false with
              | (false, bt) =>
                  ((false, "Buying team financial failure"),
                   { w with store := mto_store1 w l wageFactor contractLen, teamA := bt })
              | (true, bt) =>
                  match handle_transfer (mto_store1 w l wageFactor contractLen) w.teamB
                      l.pid offer true with
                  | (false, st) =>
                      ((false, "Selling team financial failure"),
                       { w with
                         store := mto_store1 w l wageFactor contractLen
                         teamA := (handle_transfer (mto_store1 w l wageFactor contractLen)
                           bt l.pid (offer + offer * agentRate) true).2
                         teamB := st })
                  | (true, st) =>
                      ((true, "Transfer completed!"),
                       { w with
                         store := mto_store1 w l wageFactor contractLen
                         teamA := bt
                         teamB := st
                         transfer_list := w.transfer_list.erase l })).1 ≠
            (false, "Offer too low")) := by
        split_ifs with hwd
        · simp
        · rcases hhb : handle_transfer (mto_store1 w l wageFactor contractLen) w.teamA
              l.pid (offer + offer * agentRate) false with ⟨bb, bt⟩
          cases bb
          · simp [hhb]
          · rcases hhs : handle_transfer (mto_store1 w l wageFactor contractLen) w.teamB
                l.pid offer true with ⟨sb, st⟩
            cases sb
            · simp [hhb, hhs]
            · simp [hhb, hhs]
      simp only [ne_eq] at hres
      exact ⟨fun hr => absurd hr hres, fun hr => absurd hr hof⟩
  · intro hwd htb hnr hwage hsell hof'
    have hof'' : ¬ offer < l.asking_price * 0.75 := not_lt.mpr hof'
    have hwage' : ¬ (playerOf (mto_store1 w l wageFactor contractLen) l.pid).wage * 52 >
        w.teamA.wage_budget -
          (w.teamA.roster.map
            (fun q => (playerOf (mto_store1 w l wageFactor contractLen) q).wage * 52)).sum := by
      have hmap : w.teamA.roster.map
          (fun q => (playerOf (mto_store1 w l wageFactor contractLen) q).wage * 52) =
          w.teamA.roster.map (fun q => (playerOf w.store q).wage * 52) := by
        apply List.map_congr_left
        intro q hq
        have hqne : q ≠ l.pid := by
          intro heq
          subst heq
          exact hnr hq
        rw [mto_store1, playerOf_setP_ne _ _ _ _ hqne]
      rw [hmap, mto_store1, playerOf_setP_self]
      simpa [mto_negotiated_player] using hwage
    have hbuy := handle_transfer_buy_ok (mto_store1 w l wageFactor contractLen) w.teamA
      l.pid (offer + offer * agentRate) htb hwage'
    have hsell' := handle_transfer_sell_ok (mto_store1 w l wageFactor contractLen)
      _ l.pid offer hsell
    simp only [make_transfer_offer, hw, Bool.not_true, Bool.false_eq_true, if_false,
      if_neg hb1, if_neg hb2, if_neg hof'', if_neg hwd, hbuy, hsell']

/-- Witness for C1 (amended) at `wC1`: an offer of exactly 750,000 = 0.75×P
is accepted and is in particular not rejected as too low. -/
theorem C1_amended_witness :
    (make_transfer_offer wC1 lC1 750000 (1/20) 1 3).1 = (true, "Transfer completed!") ∧
    (make_transfer_offer wC1 lC1 750000 (1/20) 1 3).1 ≠ (false, "Offer too low") := by
  have h := C1_amended_seventyfive_floor wC1 lC1 750000 (1/20) 1 3
    (by norm_num [wC1, is_transfer_window_open, get_current_window])
    (by norm_num [wC1])
    (by norm_num [wC1])
  refine ⟨h.2 ?_ ?_ ?_ ?_ ?_ ?_, fun hr => absurd (h.1.mp hr) (by norm_num [lC1])⟩
  · norm_num [mto_wage_demand, wC1, lC1, playerOf, lookupP, starPlayer, fillerPlayer,
      defaultPlayer]
  · norm_num [wC1]
  · norm_num [wC1, lC1]
  · norm_num [mto_wage_demand, wC1, lC1, playerOf, lookupP, starPlayer, fillerPlayer,
      defaultPlayer]
  · norm_num [wC1, lC1]
  · norm_num [lC1]

/-- Witness for C7: with Q(0,1)=Q(0,2)=3 and Q(0,0)=0, the exploitation
pick over [0,1,2] is action 1, the earlier of the two tied maximisers. -/
theorem C7_witness :
    (1 : QAction) ∈ [0, 1, 2] ∧
    (⟨[((0, 1), 3), ((0, 2), 3)]⟩ : QTable).get_value 0 2 ≤
      (⟨[((0, 1), 3), ((0, 2), 3)]⟩ : QTable).get_value 0 1 := by
  have h := C7_exploit_argmax ⟨[((0, 1), 3), ((0, 2), 3)]⟩ 0 0 1 [1, 2]
    (by norm_num [select_action_exploit, pyMaxKey, QTable.get_value, lookupQ])
  exact ⟨h.1, h.2.1 2 (by norm_num)⟩

/-- Claim C10 (counterexample): at `wC10` the squad has fewer than 16 players
and player 1 is in the free-agent pool, yet the signing does not complete:
the £5,000 bonus is debited (budget 3,000 → −2,000), and `Team.add_player`
then raises its wage-budget `ValueError`, which propagates out of
`sign_free_agent`. -/
theorem C10_counterexample_signing_raises :
    sign_free_agent wC10 1 5 1 3 =
      .error ("Adding player would exceed wage budget",
        { wC10 with
          store := setP wC10.store 1 (sfa_player wC10 1 1 3)
          teamA := { wC10.teamA with budget := -2000 } }) ∧
    ({ wC10.teamA with budget := (-2000 : ℚ) }).budget < 0 := by
  constructor
  · norm_num [sign_free_agent, sfa_player, add_player, wC10, defaultPlayer, playerOf,
      lookupP, setP]
  · norm_num

/-- Claim C10 (amended): for a team with fewer than 16 players and a player in
the free-agent pool, `sign_free_agent` never returns the "Cannot afford
signing bonus" or "Wage demands too high" rejections; and whenever
`Team.add_player`'s own wage-budget check also passes (and the player is not
already on the roster), the signing completes with the bonus debited
unconditionally — the budget may therefore go negative.  (When the
`add_player` check fails, the call instead raises after debiting the
bonus; see the counterexample.) -/
theorem C10_amended_emergency_signing (w : World) (pid : ℕ) (bw : ℤ) (wf : ℚ) (cl : ℤ)
    (hfa : pid ∈ w.free_agents)
    (hem : w.teamA.roster.length < 16) :
    (∀ res w', sign_free_agent w pid bw wf cl = .ok (res, w') →
      res.2 ≠ "Cannot afford signing bonus" ∧ res.2 ≠ "Wage demands too high") ∧
    (pid ∉ w.teamA.roster →
      ¬ ((w.teamA.roster.map (fun q => (playerOf w.store q).wage)).sum +
          (playerOf w.store pid).desired_wage * wf > w.teamA.wage_budget / 52) →
      sign_free_agent w pid bw wf cl =
        .ok ((true, "Free agent signed!"),
          { w with
            store := setP w.store pid (sfa_player w pid wf cl)
            teamA := { w.teamA with
              budget := w.teamA.budget - (playerOf w.store pid).desired_wage * (bw : ℚ)
              roster := w.teamA.roster ++ [pid] }
            free_agents := w.free_agents.erase pid })) := by
  constructor
  · intro res w' hres
    have hd16 : decide (w.teamA.roster.length < 16) = true := decide_eq_true hem
    unfold sign_free_agent at hres
    rw [if_neg (not_not_intro hfa)] at hres
    simp only [hd16, Bool.not_true, Bool.false_and, Bool.false_eq_true, if_false] at hres
    split at hres
    · exact absurd hres (by simp)
    · simp only [Except.ok.injEq, Prod.mk.injEq] at hres
      obtain ⟨h1, -⟩ := hres
      subst h1
      constructor <;> simp
  · intro hnr hfit
    exact sign_free_agent_emergency w pid bw wf cl hfa hem hnr hfit

/-- Witness for C10 (amended) at `wC10ok`: the emergency signing completes
and drives the budget to 3,000 − 5×1,000 = −2,000 < 0. -/
theorem C10_amended_witness :
    sign_free_agent wC10ok 1 5 1 3 =
      .ok ((true, "Free agent signed!"),
        { wC10ok with
          store := setP wC10ok.store 1 (sfa_player wC10ok 1 1 3)
          teamA := { wC10ok.teamA with
            budget := wC10ok.teamA.budget -
              (playerOf wC10ok.store 1).desired_wage * ((5 : ℤ) : ℚ)
            roster := wC10ok.teamA.roster ++ [1] }
          free_agents := wC10ok.free_agents.erase 1 }) ∧
    wC10ok.teamA.budget - (playerOf wC10ok.store 1).desired_wage * ((5 : ℤ) : ℚ) < 0 := by
  refine ⟨(C10_amended_emergency_signing wC10ok 1 5 1 3 (by norm_num [wC10ok, wC10])
      (by norm_num [wC10ok, wC10])).2
      (by norm_num [wC10ok, wC10])
      (by norm_num [wC10ok, wC10, playerOf, lookupP, defaultPlayer]), ?_⟩
  norm_num [wC10ok, wC10, playerOf, lookupP, defaultPlayer]

/-- Claim C4: on a day outside both windows (summer 1–61, january 183–214),
`list_player`, `make_transfer_offer` and `make_loan_offer` all return the
"Transfer window is closed" rejection with the world — listings, rosters and
budgets — unchanged, while `sign_free_agent` carries no window check at all:
on the same closed day an emergency signing of a pooled free agent
succeeds. -/
theorem C4_window_gating (w : World) (pid : ℕ) (price : ℚ) (l : TransferListing)
    (ll : LoanListing) (offer ar wf : ℚ) (cl : ℤ) (fpid : ℕ) (bw : ℤ) (wfa : ℚ)
    (cl2 : ℤ)
    (hd : ¬ ((1 ≤ w.current_day ∧ w.current_day ≤ 61) ∨
      (183 ≤ w.current_day ∧ w.current_day ≤ 214))) :
    list_player w pid price = ((none, "Transfer window is closed"), w) ∧
    make_transfer_offer w l offer ar wf cl = ((false, "Transfer window is closed"), w) ∧
    make_loan_offer w ll = ((false, "Transfer window is closed"), w) ∧
    (fpid ∈ w.free_agents → w.teamA.roster.length < 16 → fpid ∉ w.teamA.roster →
      ¬ ((w.teamA.roster.map (fun q => (playerOf w.store q).wage)).sum +
          (playerOf w.store fpid).desired_wage * wfa > w.teamA.wage_budget / 52) →
      ∃ w', sign_free_agent w fpid bw wfa cl2 = .ok ((true, "Free agent signed!"), w')) := by
  have hcl := window_closed_of w.current_day hd
  refine ⟨?_, ?_, ?_, ?_⟩
  · simp [list_player, hcl]
  · simp [make_transfer_offer, hcl]
  · simp [make_loan_offer, hcl]
  · intro hfa hem hnr hfit
    exact ⟨_, sign_free_agent_emergency w fpid bw wfa cl2 hfa hem hnr hfit⟩

/-- Witness for C4 at `wC4` (day 100, between the windows): listing is
rejected with the state unchanged, and the free-agent signing succeeds on
the same closed day. -/
theorem C4_witness :
    list_player wC4 1 100 = ((none, "Transfer window is closed"), wC4) ∧
    (∃ w', sign_free_agent wC4 1 10 1 3 = .ok ((true, "Free agent signed!"), w')) := by
  have h := C4_window_gating wC4 1 100 lC1 ⟨1, 0, 0.5, 6, 0, 30⟩ 0 0 1 1 1 10 1 3
    (by norm_num [wC4])
  exact ⟨h.1, h.2.2.2 (by norm_num [wC4]) (by norm_num [wC4]) (by norm_num [wC4])
    (by norm_num [wC4, playerOf, lookupP, freeAgentPlayer, defaultPlayer])⟩

/-- Claim C8 (counterexample): `calculate_player_value` is not monotone
against ageing past 28 when the player has recent injuries, because the
"recent injury" count compares `start_age ≥ age - 2`: `injuredPeakPlayer`
(age 25, three injuries at start age 23, injury factor 0.7, peak age factor
1.2) is valued 6,720,000, while the identical player at age 29 (no longer
"recent" injuries, factor 1.0, age factor 1.0) is valued 8,000,000. -/
theorem C8_counterexample_older_valued_higher :
    calculate_player_value injuredPeakPlayer <
      calculate_player_value { injuredPeakPlayer with age := 29 } ∧
    injuredPeakPlayer.age = 25 := by
  constructor
  · simp [calculate_player_value, injuredPeakPlayer, defaultPlayer, get_overall_rating,
      get_form_rating, position_premium, pyRound]
    norm_num
  · norm_num [injuredPeakPlayer, defaultPlayer]

/-- Claim C8 (amended): `calculate_player_value` is deterministic (it is a
pure function of the snapshot), always returns at least 500,000, and — for a
player with an empty injury history (so the age-relative injury-recency
window cannot change the injury factor) and non-negative attribute and form
values — an age strictly above 28 never yields a value above the identical
player at peak age 25–28. -/
theorem C8_value_deterministic_floor_age (p : Player) (a1 a2 : ℤ)
    (hinj : p.injury_history = [])
    (hattr : ∀ cat ∈ p.attributes, ∀ v ∈ cat, 0 ≤ v)
    (hform : ∀ v ∈ p.form, 0 ≤ v)
    (h1 : 25 ≤ a1) (h2 : a1 ≤ 28) (h3 : 28 < a2) :
    calculate_player_value p = calculate_player_value p ∧
    (500000 : ℤ) ≤ calculate_player_value p ∧
    calculate_player_value { p with age := a2 } ≤
      calculate_player_value { p with age := a1 } := by
  refine ⟨rfl, ?_, ?_⟩
  · simp only [calculate_player_value]
    exact le_max_left _ _
  have hov := get_overall_rating_nonneg p hattr
  have hfr := get_form_rating_nonneg p hform
  simp only [calculate_player_value, hinj]
  apply max_le_max (le_refl (500000 : ℤ))
  apply pyRound_mono
  simp only [get_overall_rating_update, get_form_rating_update, List.filter_nil,
    List.length_nil, Nat.cast_zero]
  have hsup : (0.7 : ℚ) ⊔ (1 - 0 * 0.1) = 1 := by
    rw [sup_eq_max]
    norm_num
  rw [hsup]
  have hA1 : (if a1 ≤ 20 then 0.7 + p.potential / 200
      else if a1 ≤ 24 then 0.9 + p.potential / 300
      else if a1 ≤ 28 then (1.2 : ℚ) else if a1 ≤ 31 then 1.0
      else if a1 ≤ 34 then 0.7 else 0.4) = 1.2 := by
    rw [if_neg (by omega), if_neg (by omega), if_pos (by omega)]
  have hA2 : (if a2 ≤ 20 then 0.7 + p.potential / 200
      else if a2 ≤ 24 then 0.9 + p.potential / 300
      else if a2 ≤ 28 then (1.2 : ℚ) else if a2 ≤ 31 then 1.0
      else if a2 ≤ 34 then 0.7 else 0.4) =
      (if a2 ≤ 31 then (1.0 : ℚ) else if a2 ≤ 34 then 0.7 else 0.4) := by
    rw [if_neg (by omega), if_neg (by omega), if_neg (by omega)]
  rw [hA1, hA2]
  set A2 := (if a2 ≤ 31 then (1.0 : ℚ) else if a2 ≤ 34 then 0.7 else 0.4) with hA2def
  have hA2le : A2 ≤ 1.2 := by
    rw [hA2def]; split_ifs <;> norm_num
  have hA2nn : 0 ≤ A2 := by
    rw [hA2def]; split_ifs <;> norm_num
  set B := get_overall_rating p * 100000 with hBdef
  set P2 := 1 + (0 ⊔ (p.potential - get_overall_rating p)) / 100 * 1.8 with hPdef
  set F2 := 0.8 + get_form_rating p * 0.4 with hFdef
  set C2 := (if p.contract_length ≤ 1 then (0.8 : ℚ)
    else if p.contract_length ≥ 4 then 1.1 else 1.0) with hCdef
  set R2 := (if p.squad_role = "STARTER" then (1.2 : ℚ)
    else if p.squad_role = "RESERVE" then 1.0
    else if p.squad_role = "YOUTH" then (if p.potential > 70 then 0.95 else 0.85)
    else if p.squad_role = "BENCH" then 0.9 else 1.0) with hRdef
  have hB : 0 ≤ B := by rw [hBdef]; positivity
  have hP : 0 ≤ P2 := by
    rw [hPdef]
    have h0 : (0 : ℚ) ≤ 0 ⊔ (p.potential - get_overall_rating p) := le_max_left _ _
    nlinarith
  have hF : 0 ≤ F2 := by rw [hFdef]; nlinarith
  have hC : 0 ≤ C2 := by rw [hCdef]; split_ifs <;> norm_num
  have hR : 0 ≤ R2 := by rw [hRdef]; split_ifs <;> norm_num
  have hPos : 0 ≤ position_premium p.position := (position_premium_pos _).le
  have hK : 0 ≤ B * P2 * F2 * C2 * position_premium p.position * R2 :=
    mul_nonneg (mul_nonneg (mul_nonneg (mul_nonneg (mul_nonneg hB hP) hF) hC) hPos) hR
  calc B * A2 * P2 * F2 * C2 * position_premium p.position * R2 * 1
      = A2 * (B * P2 * F2 * C2 * position_premium p.position * R2) := by ring
    _ ≤ 1.2 * (B * P2 * F2 * C2 * position_premium p.position * R2) :=
        mul_le_mul_of_nonneg_right hA2le hK
    _ = B * 1.2 * P2 * F2 * C2 * position_premium p.position * R2 * 1 := by ring

/-- Witness for C8 (amended) at `healthyPlayer` (empty injury history),
comparing age 30 against peak age 26. -/
theorem C8_amended_witness :
    (500000 : ℤ) ≤ calculate_player_value healthyPlayer ∧
    calculate_player_value { healthyPlayer with age := 30 } ≤
      calculate_player_value { healthyPlayer with age := 26 } := by
  have h := C8_value_deterministic_floor_age healthyPlayer 26 30
    (by norm_num [healthyPlayer, injuredPeakPlayer, defaultPlayer])
    (by norm_num [healthyPlayer, injuredPeakPlayer, defaultPlayer])
    (by norm_num [healthyPlayer, injuredPeakPlayer, defaultPlayer])
    (by norm_num) (by norm_num) (by norm_num)
  exact ⟨h.2.1, h.2.2⟩

theorem map_fst_zip_sublist (l1 : List Player) (l2 : List String) :
    ((l1.zip l2).map Prod.fst).Sublist l1 := by
  induction l1 generalizing l2 with
  | nil => simp
  | cons x xs ih =>
      cases l2 with
      | nil => simp
      | cons y ys => simpa using (ih ys).cons₂ x

theorem match_score_nonneg (events : List (Option Bool)) :
    0 ≤ (match_score events).1 ∧ 0 ≤ (match_score events).2 := by
  suffices h : ∀ (evs : List (Option Bool)) (s : ℤ × ℤ), 0 ≤ s.1 → 0 ≤ s.2 →
      0 ≤ (evs.foldl minute_score_step s).1 ∧ 0 ≤ (evs.foldl minute_score_step s).2 by
    exact h events (0, 0) le_rfl le_rfl
  intro evs
  induction evs with
  | nil => intro s h1 h2; exact ⟨h1, h2⟩
  | cons e rest ih =>
      intro s h1 h2
      rcases e with - | b
      · exact ih s h1 h2
      · rcases b with - | -
        · exact ih _ h1 (by simp [minute_score_step]; omega)
        · exact ih _ (by simp [minute_score_step]; omega) h2

theorem length_le_avail (teamPlayers : List Player) (hteam : teamPlayers.Nodup)
    (l : List Player) (hl : l.Nodup)
    (hmem : ∀ p ∈ l, p ∈ teamPlayers ∧ is_available_for_selection p = true) :
    l.length ≤ (teamPlayers.filter (fun p => is_available_for_selection p)).length := by
  have hsub : l ⊆ teamPlayers.filter (fun p => is_available_for_selection p) := by
    intro p hp
    exact List.mem_filter.mpr ⟨(hmem p hp).1, (hmem p hp).2⟩
  exact (hl.subperm hsub).length_le

theorem map_fst_pair_self (l : List Player) :
    (l.map (fun p => (p, p.position))).map Prod.fst = l := by
  rw [List.map_map]
  have h : Prod.fst ∘ (fun p : Player => (p, p.position)) = id := rfl
  rw [h, List.map_id]

theorem vl_stage2_ok (teamPlayers : List Player) (hteam : teamPlayers.Nodup)
    (av : List (Player × String))
    (hA : 7 ≤ (teamPlayers.filter (fun p => is_available_for_selection p)).length) :
    ∀ e, vl_stage2 teamPlayers av ≠ .error e := by
  intro e
  unfold vl_stage2
  dsimp only
  split_ifs with h11 h7 hf
  · simp
  · exfalso
    set Tav := teamPlayers.filter (fun p => is_available_for_selection p) with hTav
    set cpred : Player → Bool := fun p => (av.map Prod.fst).contains p with hcpred
    have hpart := List.length_eq_length_filter_add (l := Tav) cpred
    have hyes : (Tav.filter cpred).length ≤ (av.map Prod.fst).length := by
      apply List.Subperm.length_le
      apply List.Nodup.subperm ((hteam.filter _).filter _)
      intro p hp
      have := (List.mem_filter.mp hp).2
      rw [hcpred] at this
      simpa using this
    have hrem : teamPlayers.filter
        (fun p => !((av.map Prod.fst).contains p) && is_available_for_selection p) =
        Tav.filter (fun p => !(cpred p)) := by
      rw [hTav, List.filter_filter]
    rw [hrem] at hf
    simp only [List.length_append, List.length_map, List.length_take] at hf
    rw [List.length_map] at hyes
    omega
  · simp
  · simp

theorem vl_stage2_err (teamPlayers : List Player) (hteam : teamPlayers.Nodup)
    (av : List (Player × String))
    (hnd : (av.map Prod.fst).Nodup)
    (hmem : ∀ sl ∈ av, sl.1 ∈ teamPlayers ∧ is_available_for_selection sl.1 = true)
    (hA : (teamPlayers.filter (fun p => is_available_for_selection p)).length < 7) :
    vl_stage2 teamPlayers av = .error "Insufficient players available" := by
  have hlenav : av.length ≤
      (teamPlayers.filter (fun p => is_available_for_selection p)).length := by
    rw [← List.length_map av Prod.fst]
    apply length_le_avail teamPlayers hteam _ hnd
    intro p hp
    obtain ⟨sl, hsl, rfl⟩ := List.mem_map.mp hp
    exact hmem sl hsl
  unfold vl_stage2
  dsimp only
  rw [if_neg (by omega), if_pos (by omega)]
  set remaining := teamPlayers.filter
    (fun p => !((av.map Prod.fst).contains p) && is_available_for_selection p) with hremdef
  set taken := remaining.take (11 - av.length) with htakendef
  have htk_sub : taken.Sublist remaining := List.take_sublist _ _
  have hfill : ((av ++ taken.map (fun p => (p, p.position))).map Prod.fst).length ≤
      (teamPlayers.filter (fun p => is_available_for_selection p)).length := by
    apply length_le_avail teamPlayers hteam
    · rw [List.map_append, map_fst_pair_self]
      apply List.Nodup.append hnd ((hteam.filter _).sublist htk_sub)
      intro x hx hx2
      have hxrem := htk_sub.subset hx2
      rw [hremdef] at hxrem
      have hpred := (List.mem_filter.mp hxrem).2
      rw [Bool.and_eq_true] at hpred
      have hc := hpred.1
      simp only [Bool.not_eq_true'] at hc
      have hnotin : x ∉ List.map Prod.fst av := by simpa using hc
      exact hnotin hx
    · intro p hp
      rw [List.map_append, map_fst_pair_self] at hp
      rcases List.mem_append.mp hp with hp1 | hp2
      · obtain ⟨sl, hsl, rfl⟩ := List.mem_map.mp hp1
        exact hmem sl hsl
      · have hxrem := htk_sub.subset hp2
        rw [hremdef] at hxrem
        have hmemT := (List.mem_filter.mp hxrem).1
        have hpred := (List.mem_filter.mp hxrem).2
        rw [Bool.and_eq_true] at hpred
        exact ⟨hmemT, hpred.2⟩
  have hlen7 : (av ++ taken.map (fun p => (p, p.position))).length < 7 := by
    rw [List.length_map] at hfill
    omega
  rw [if_pos hlen7]

theorem vl_gkfix_facts (teamPlayers : List Player) (av : List (Player × String))
    (hnd : (av.map Prod.fst).Nodup)
    (hmem : ∀ sl ∈ av, sl.1 ∈ teamPlayers ∧ is_available_for_selection sl.1 = true)
    (hng : (av.filter (fun sl => sl.2 == "GK")).length < 1 →
      ∀ sl ∈ av, sl.1.position ≠ "GK") :
    ((vl_gkfix teamPlayers av).map Prod.fst).Nodup ∧
    (∀ sl ∈ vl_gkfix teamPlayers av, sl.1 ∈ teamPlayers ∧
      is_available_for_selection sl.1 = true) := by
  unfold vl_gkfix
  split_ifs with hcount
  · split
    · exact ⟨hnd, hmem⟩
    · rename_i g gs hgl
      have hgmem : g ∈ teamPlayers.filter
          (fun p => p.position == "GK" && is_available_for_selection p) := by
        rw [hgl]; exact List.mem_cons_self _ _
      have hgteam := (List.mem_filter.mp hgmem).1
      have hgpred := (List.mem_filter.mp hgmem).2
      rw [Bool.and_eq_true] at hgpred
      have hgpos : g.position = "GK" := by simpa using hgpred.1
      have hgav : is_available_for_selection g = true := hgpred.2
      have hgnotin : ∀ sl ∈ av, sl.1 ≠ g := by
        intro sl hslm heq
        exact hng hcount sl hslm (heq ▸ hgpos)
      split
      · constructor
        · simp
        · intro sl hslm
          have : sl = (g, "GK") := by simpa using hslm
          rw [this]
          exact ⟨hgteam, hgav⟩
      · rename_i sl0 rest
        constructor
        · simp only [List.map_cons]
          rw [List.nodup_cons]
          constructor
          · intro hgin
            obtain ⟨sl, hslr, hsleq⟩ := List.mem_map.mp hgin
            exact hgnotin sl (List.mem_cons_of_mem sl0 hslr) hsleq
          · rw [List.map_cons, List.nodup_cons] at hnd
            exact hnd.2
        · intro sl hslm
          rcases List.mem_cons.mp hslm with hh | ht
          · rw [hh]; exact ⟨hgteam, hgav⟩
          · exact hmem sl (List.mem_cons_of_mem sl0 ht)
  · exact ⟨hnd, hmem⟩

/-- Claim C9: lineup validation raises the forfeit error iff the club has
fewer than 7 available players (not injured, fitness above 30, not
suspended) even after refilling from the roster; and scores are
non-negative after any sequence of simulated minutes from the initial 0–0
(as kicked off in `Match.__init__`). -/
theorem C9_forfeit_iff_and_scores (lineup : List Player) (positions : List String)
    (teamPlayers : List Player)
    (hnd : lineup.Nodup)
    (hsub : ∀ p ∈ lineup, p ∈ teamPlayers)
    (hteam : teamPlayers.Nodup)
    (hgk : ∀ sl ∈ lineup.zip positions, sl.1.position = "GK" → sl.2 = "GK") :
    ((∃ e, validate_lineup lineup positions teamPlayers = .error e) ↔
      (teamPlayers.filter (fun p => is_available_for_selection p)).length < 7) ∧
    (∀ events, 0 ≤ (match_score events).1 ∧ 0 ≤ (match_score events).2) := by
  refine ⟨?_, match_score_nonneg⟩
  unfold validate_lineup
  set av0 := (lineup.zip positions).filter
    (fun sl => is_available_for_selection sl.1) with hav0
  have hsl : (av0.map Prod.fst).Sublist lineup :=
    ((List.filter_sublist _).map Prod.fst).trans (map_fst_zip_sublist lineup positions)
  have hnd0 : (av0.map Prod.fst).Nodup := hnd.sublist hsl
  have hmem0 : ∀ sl ∈ av0, sl.1 ∈ teamPlayers ∧
      is_available_for_selection sl.1 = true := by
    intro sl hslm
    have h1 := (List.mem_filter.mp hslm).1
    have h2 := (List.mem_filter.mp hslm).2
    obtain ⟨a, b⟩ := sl
    exact ⟨hsub a (List.mem_zip h1).1, h2⟩
  have hng : (av0.filter (fun sl => sl.2 == "GK")).length < 1 →
      ∀ sl ∈ av0, sl.1.position ≠ "GK" := by
    intro hc sl hslm hpos
    have hzl : sl ∈ lineup.zip positions := (List.mem_filter.mp hslm).1
    have hlab := hgk sl hzl hpos
    have hmemf : sl ∈ av0.filter (fun sl => sl.2 == "GK") :=
      List.mem_filter.mpr ⟨hslm, by simp [hlab]⟩
    have := List.length_pos_of_mem hmemf
    omega
  obtain ⟨hnd1, hmem1⟩ := vl_gkfix_facts teamPlayers av0 hnd0 hmem0 hng
  constructor
  · rintro ⟨e, he⟩
    by_contra hA
    push_neg at hA
    exact vl_stage2_ok teamPlayers hteam _ hA e he
  · intro hA
    exact ⟨_, vl_stage2_err teamPlayers hteam _ hnd1 hmem1 hA⟩



/-- Witness for C9: a club of exactly 7 available players fields a valid
lineup (no forfeit error), and the scoreboard after a concrete sequence of
minutes is non-negative. -/
theorem C9_witness :
    (¬ ∃ e, validate_lineup teamC9 ["GK", "CM", "CM", "CM", "CM", "CM", "CM"] teamC9 =
      .error e) ∧
    0 ≤ (match_score [some true, some false, none]).1 ∧
    0 ≤ (match_score [some true, some false, none]).2 := by
  have h := C9_forfeit_iff_and_scores teamC9 ["GK", "CM", "CM", "CM", "CM", "CM", "CM"]
    teamC9 (by decide) (fun p hp => hp) (by decide) (by decide)
  refine ⟨fun hex => ?_, h.2 [some true, some false, none]⟩
  have hlt := h.1.mp hex
  have h7 : (teamC9.filter (fun p => is_available_for_selection p)).length = 7 := by decide
  omega

end Footy
